import Mathlib

/-!
# Verification of the genie-dashboard task engine (src/server.js)

Shallow embedding of the Supabase-backed task server: the read cache,
the single-task operations, the bulk reconciler (`bulkSaveTasks`), the
audit log, the session-status read, identifier sanitization, and the
`POST /api/tasks` action dispatch.

Modelling conventions:
* Machine time (`Date.now()`, `created_at`/`updated_at` timestamps) is a
  `Nat` parameter `now`, in milliseconds.
* JavaScript `x || d` on strings maps the falsy values (missing, `""`)
  to the default; a missing string field is represented by `""` wherever
  every use site guards it with a truthiness check, which is the case for
  the task payload fields.  `x || null` is `orNullStr` / `orNullNat`.
* The durable store (tables `tasks`, `comments`, `lamp_audit`,
  `genie_status` of src/supabase/schema.sql) is a `Store` of row lists.
  `comments.task_id` carries `NOT NULL REFERENCES tasks(id) ON DELETE
  CASCADE`, so comment insertion checks the foreign key and task deletion
  cascades to comments, as the schema dictates.
* Store transport failures are injected through explicit flags where a
  claim needs them; otherwise store calls succeed.
-/

namespace Genie

/-- Source `COLUMNS` from src/server.js line 254. -/
def COLUMNS : List String := ["genie", "inbox", "in_progress", "blocked", "review", "done"]

/-- The configured service tag (`process.env.SERVICE_NAME || 'local'`). -/
def SERVICE_NAME : String := "local"

/-- JS `x || d` for strings: `""` (and a missing field encoded as `""`) falls back to `d`. -/
def orElseStr (x d : String) : String :=
  if x = "" then d else x

/-- JS `x || null` for strings stored in a nullable column. -/
def orNullStr (x : String) : Option String :=
  if x = "" then none else some x

/-- JS `x || null` for an optional numeric value (`0` is falsy). -/
def orNullNat (x : Option Nat) : Option Nat :=
  match x with
  | some 0 => none
  | y => y

/-- A comment as submitted by a client inside a task snapshot or a
comment action (`{author, text}`; the server ignores any client `time`). -/
structure CommentInput where
  author : String
  text : String
deriving Repr, DecidableEq

/-- A client-submitted task snapshot (the request-body `task` object).
Missing string fields are encoded as `""` (falsy, like `undefined`, at
every use site). -/
structure FrontendTask where
  id : String := ""
  title : String := ""
  description : String := ""
  successCriteria : String := ""
  userJourney : String := ""
  column : String := ""
  priority : String := ""
  type : String := ""
  seenAt : Option Nat := none
  needsLaptop : Bool := false
  needsMobile : Bool := false
  archived : Bool := false
  archivedAt : Option Nat := none
  celebrationImage : String := ""
  projectId : String := ""
  comments : List CommentInput := []
deriving Repr, DecidableEq

/-- A row of the `tasks` table (src/supabase/schema.sql). -/
structure TaskRow where
  id : String
  title : String
  description : Option String := none
  success_criteria : Option String := none
  user_journey : Option String := none
  column_name : String := "inbox"
  priority : String := "medium"
  task_type : String := "single"
  seen_at : Option Nat := none
  needs_laptop : Bool := false
  needs_mobile : Bool := false
  archived : Bool := false
  archived_at : Option Nat := none
  celebration_image : Option String := none
  project_id : Option String := none
  created_at : Nat := 0
  updated_at : Nat := 0
deriving Repr, DecidableEq

/-- A row of the `comments` table. `created_at` defaults to the insert time. -/
structure CommentRow where
  task_id : String
  author : String
  text : String
  created_at : Nat := 0
deriving Repr, DecidableEq

/-- A row of the `lamp_audit` table, as written by `addAuditLog`
(src/server.js lines 560-582). -/
structure AuditRow where
  event_type : String
  task_id : String
  task_title : String
  from_column : Option String := none
  to_column : Option String := none
  author : String := "unknown"
  service : String := SERVICE_NAME
  created_at : Nat := 0
deriving Repr, DecidableEq

/-- A row of the `projects` table (src/supabase/migration-v5-projects.sql). -/
structure ProjectRow where
  id : String
  title : String
  description : Option String := none
  status : String := "planning"
  created_at : Nat := 0
  updated_at : Nat := 0
deriving Repr, DecidableEq

/-- A row of the `project_comments` table; `project_id` is `NOT NULL
REFERENCES projects(id) ON DELETE CASCADE`. -/
structure ProjectCommentRow where
  project_id : String
  author : String
  text : String
  created_at : Nat := 0
deriving Repr, DecidableEq

/-- The durable relational store: the task-engine tables plus the two
project tables of migration v5. -/
structure Store where
  tasks : List TaskRow := []
  comments : List CommentRow := []
  audit : List AuditRow := []
  projects : List ProjectRow := []
  project_comments : List ProjectCommentRow := []
deriving Repr, DecidableEq

/-- Source `addAuditLog` (Supabase branch): append a `lamp_audit` row with
`author: entry.author || 'unknown'` and the service tag.  Audit-write
failures are caught inside `addAuditLog`, so the append never fails the
surrounding mutation. -/
def addAuditLogRow (store : Store) (event_type task_id task_title : String)
    (from_column to_column : Option String) (author : String) (now : Nat) : Store :=
  { store with audit := store.audit ++
      [{ event_type, task_id, task_title, from_column, to_column,
         author := orElseStr author "unknown", service := SERVICE_NAME, created_at := now }] }

/-- Insert a batch of `comments` rows; `task_id` is `NOT NULL REFERENCES
tasks(id)`, so the insert fails when a referenced task is absent. -/
def insertComments (store : Store) (rows : List CommentRow) : Except String Store :=
  if rows.all (fun r => store.tasks.any (fun t => t.id = r.task_id)) then
    .ok { store with comments := store.comments ++ rows }
  else
    .error "insert on comments violates foreign key constraint comments_task_id_fkey"

/-! ## Validation helpers (src/server.js lines 425-464) -/

/-- The identifier charset `[a-zA-Z0-9_-]` of `sanitizeId`. -/
def isIdChar (c : Char) : Bool :=
  ('a' ≤ c && c ≤ 'z') || ('A' ≤ c && c ≤ 'Z') || ('0' ≤ c && c ≤ '9') || c = '_' || c = '-'

/-- Source `sanitizeId` (src/server.js lines 427-431): strip every character
outside `[a-zA-Z0-9_-]`; accept only a non-empty result of at most 50
characters.  A missing or non-string id (`none`) is rejected, and so is
`""` (falsy), which also sanitizes to the empty string. -/
def sanitizeId (id : Option String) : Option String :=
  match id with
  | none => none
  | some s =>
    let sanitized := String.mk (s.data.filter isIdChar)
    if 0 < sanitized.length ∧ sanitized.length ≤ 50 then some sanitized else none

/-- JS `s.trim().length === 0`: true exactly when every character of the
string is whitespace (in particular for the empty string). -/
def trimEmpty (s : String) : Bool :=
  s.data.all (fun ch => ch.isWhitespace)

/-- Source `validateTask` (lines 433-452), returning the error list; the task is
valid iff the list is empty.  `task = none` models a missing body field. -/
def validateTask (task : Option FrontendTask) : List String :=
  match task with
  | none => ["Task is required"]
  | some t =>
    (if trimEmpty t.title then ["Title is required and must be non-empty"] else []) ++
    (if t.title ≠ "" ∧ 500 < t.title.length then ["Title must be 500 characters or less"] else []) ++
    (if t.column ≠ "" ∧ ¬ t.column ∈ COLUMNS then ["Invalid column: " ++ t.column] else []) ++
    (if t.priority ≠ "" ∧ ¬ t.priority ∈ ["low", "medium", "high"] then
      ["Invalid priority: " ++ t.priority] else []) ++
    (if t.type ≠ "" ∧ ¬ t.type ∈ ["single", "recurring"] then ["Invalid type: " ++ t.type] else [])

/-- Source `validateComment` (lines 454-464). -/
def validateComment (comment : Option CommentInput) : List String :=
  match comment with
  | none => ["Comment is required"]
  | some c =>
    (if trimEmpty c.text then ["Comment text is required"] else []) ++
    (if c.author = "" then ["Comment author is required"] else [])

/-! ## Read cache (src/server.js lines 257-276) -/

/-- Source `cache.TTL`: 10 seconds. -/
def CACHE_TTL : Nat := 10000

/-- A comment as shaped by `getTasks` for the snapshot (`{author, text, time}`). -/
structure Comment where
  author : String
  text : String
  time : Nat
deriving Repr, DecidableEq

/-- A task as shaped by `getTasks` for the snapshot. `created` keeps the
numeric creation timestamp (the source formats it as a date string). -/
structure FormattedTask where
  id : String
  title : String
  description : String
  successCriteria : String
  userJourney : String
  column : String
  priority : String
  type : String
  created : Nat
  seenAt : Option Nat
  needsLaptop : Bool
  needsMobile : Bool
  archived : Bool
  archivedAt : Option Nat
  celebrationImage : Option String
  projectId : Option String
  comments : List Comment
deriving Repr, DecidableEq

/-- The `{columns, tasks}` snapshot served by `getTasks`. -/
structure Snapshot where
  columns : List String
  tasks : List FormattedTask
deriving Repr, DecidableEq

/-- The in-memory cache object (`cache` at src/server.js lines 257-276). -/
structure Cache where
  tasks : Option Snapshot
  tasksExpiry : Nat
deriving Repr, DecidableEq

/-- Source `cache.invalidate()`: clear the snapshot and the expiry. -/
def cacheInvalidate (_c : Cache) : Cache :=
  { tasks := none, tasksExpiry := 0 }

/-- Source `cache.isValid()`: a snapshot is present and unexpired. -/
def cacheIsValid (c : Cache) (now : Nat) : Bool :=
  c.tasks.isSome && decide (now < c.tasksExpiry)

/-- Source `cache.set(data)`: store the snapshot with a 10-second expiry. -/
def cacheSet (_c : Cache) (data : Snapshot) (now : Nat) : Cache :=
  { tasks := some data, tasksExpiry := now + CACHE_TTL }

/-- The whole in-process server state: durable store plus read cache. -/
structure ServerState where
  store : Store := {}
  cache : Cache := { tasks := none, tasksExpiry := 0 }
deriving Repr, DecidableEq

/-! ## getTasks (src/server.js lines 468-527) -/

/-- Insert into a list sorted by `created_at` descending (the
`order('created_at', ascending: false)` of the tasks read). -/
def insertTaskDesc (x : TaskRow) : List TaskRow → List TaskRow
  | [] => [x]
  | y :: ys => if y.created_at ≤ x.created_at then x :: y :: ys else y :: insertTaskDesc x ys

/-- Sort task rows by `created_at` descending. -/
def sortTasksDesc : List TaskRow → List TaskRow
  | [] => []
  | x :: xs => insertTaskDesc x (sortTasksDesc xs)

/-- Insert into a list sorted by `created_at` ascending (the comments read). -/
def insertCommentAsc (x : CommentRow) : List CommentRow → List CommentRow
  | [] => [x]
  | y :: ys => if x.created_at ≤ y.created_at then x :: y :: ys else y :: insertCommentAsc x ys

/-- Sort comment rows by `created_at` ascending. -/
def sortCommentsAsc : List CommentRow → List CommentRow
  | [] => []
  | x :: xs => insertCommentAsc x (sortCommentsAsc xs)

/-- Shape one stored task for the snapshot (the `formattedTasks` map of
`getTasks`, lines 498-516), attaching its comments in ascending order. -/
def formatTask (store : Store) (t : TaskRow) : FormattedTask :=
  { id := t.id
    title := t.title
    description := t.description.getD ""
    successCriteria := t.success_criteria.getD ""
    userJourney := t.user_journey.getD ""
    column := t.column_name
    priority := orElseStr t.priority "medium"
    type := orElseStr t.task_type "single"
    created := t.created_at
    seenAt := t.seen_at
    needsLaptop := t.needs_laptop
    needsMobile := t.needs_mobile
    archived := t.archived
    archivedAt := t.archived_at
    celebrationImage := match t.celebration_image with
      | some s => orNullStr s
      | none => none
    projectId := t.project_id
    comments := (sortCommentsAsc (store.comments.filter (fun c => c.task_id = t.id))).map
      (fun c => { author := c.author, text := c.text, time := c.created_at }) }

/-- The full-store snapshot computed on a cache miss. -/
def formatSnapshot (store : Store) : Snapshot :=
  { columns := COLUMNS, tasks := (sortTasksDesc store.tasks).map (formatTask store) }

/-- Source `getTasks` (Supabase branch): serve the cached snapshot when valid;
on a miss, read the store (`storeFails` injects a transport failure) and
either populate the cache or degrade to the empty snapshot without
touching the cache. -/
def getTasks (store : Store) (c : Cache) (now : Nat) (storeFails : Bool) : Snapshot × Cache :=
  if cacheIsValid c now then
    (c.tasks.getD { columns := COLUMNS, tasks := [] }, c)
  else if storeFails then
    ({ columns := COLUMNS, tasks := [] }, c)
  else
    let result := formatSnapshot store
    (result, cacheSet c result now)

/-! ## Single-task operations (src/server.js lines 667-833), Supabase branch.
Each operation mutates the store and invalidates the read cache in the
source's statement order. -/

/-- Source `addTask` (lines 667-706): assign `task.id || Date.now().toString()`,
insert the row (`id` is the primary key, so a duplicate id is a store
error), invalidate the cache, and append an `add` audit event authored
`michael`.  Returns the new state and the id. -/
def addTask (s : ServerState) (task : FrontendTask) (now : Nat) :
    Except String (ServerState × String) :=
  let id := orElseStr task.id (toString now)
  if s.store.tasks.any (fun t => t.id = id) then
    .error "duplicate key value violates unique constraint tasks_pkey"
  else
    let row : TaskRow :=
      { id
        title := task.title
        description := orNullStr task.description
        success_criteria := orNullStr task.successCriteria
        user_journey := orNullStr task.userJourney
        column_name := orElseStr task.column "inbox"
        priority := orElseStr task.priority "medium"
        task_type := orElseStr task.type "single"
        needs_laptop := task.needsLaptop
        project_id := orNullStr task.projectId
        created_at := now
        updated_at := now }
    let store1 := { s.store with tasks := s.store.tasks ++ [row] }
    let cache1 := cacheInvalidate s.cache
    let store2 := addAuditLogRow store1 "add" id task.title none none "michael" now
    .ok ({ store := store2, cache := cache1 }, id)

/-- The sparse update payload of the `update` action: a present field
(`some v`) models a defined JS property (`updates.x !== undefined`).
Setting a nullable column explicitly to `null` is not distinguished. -/
structure TaskUpdates where
  title : Option String := none
  description : Option String := none
  successCriteria : Option String := none
  userJourney : Option String := none
  priority : Option String := none
  type : Option String := none
  needsLaptop : Option Bool := none
  needsMobile : Option Bool := none
  seenAt : Option Nat := none
  column : Option String := none
  archived : Option Bool := none
  celebrationImage : Option String := none
  projectId : Option String := none
deriving Repr, DecidableEq

/-- Apply the sparse update payload to a stored row (`updated_at` is
always refreshed; `archived_at` is stamped when `archived` is set truthy),
mirroring src/server.js lines 735-753. -/
def applyTaskPayload (t : TaskRow) (u : TaskUpdates) (now : Nat) : TaskRow :=
  { t with
    updated_at := now
    title := u.title.getD t.title
    description := match u.description with
      | some d => some d
      | none => t.description
    success_criteria := match u.successCriteria with
      | some d => some d
      | none => t.success_criteria
    user_journey := match u.userJourney with
      | some d => some d
      | none => t.user_journey
    priority := u.priority.getD t.priority
    task_type := u.type.getD t.task_type
    needs_laptop := u.needsLaptop.getD t.needs_laptop
    needs_mobile := u.needsMobile.getD t.needs_mobile
    seen_at := match u.seenAt with
      | some v => some v
      | none => t.seen_at
    column_name := u.column.getD t.column_name
    archived := u.archived.getD t.archived
    archived_at := if u.archived = some true then some now else t.archived_at
    celebration_image := match u.celebrationImage with
      | some v => some v
      | none => t.celebration_image
    project_id := match u.projectId with
      | some v => some v
      | none => t.project_id }

/-- Source `updateTask` (lines 708-773): sanitize the id, read the current row
(`none` when the id is absent — the subsequent zero-row update is not a
store error), apply the sparse patch, invalidate the cache, and, when a
truthy submitted `column` differs from the stored one, append a `move`
audit event whose author is inferred when the caller passed `unknown`. -/
def updateTask (s : ServerState) (taskId : Option String) (updates : TaskUpdates)
    (author : String) (now : Nat) : Except String ServerState :=
  match sanitizeId taskId with
  | none => .error "Invalid taskId"
  | some safeId =>
    let current := s.store.tasks.find? (fun t => t.id = safeId)
    let tasks1 := s.store.tasks.map (fun t => if t.id = safeId then applyTaskPayload t updates now else t)
    let store1 := { s.store with tasks := tasks1 }
    let cache1 := cacheInvalidate s.cache
    let store2 :=
      match updates.column, current with
      | some c, some cur =>
        if c ≠ "" ∧ c ≠ cur.column_name then
          let moveAuthor :=
            if author = "unknown" then
              if c = "done" then "michael"
              else if c = "review" ∨ c = "in_progress" then "genie"
              else author
            else author
          addAuditLogRow store1 "move" safeId cur.title (some cur.column_name) (some c) moveAuthor now
        else store1
      | _, _ => store1
    .ok { store := store2, cache := cache1 }

/-- Source `deleteTask` (lines 775-801): sanitize, read the title, delete the row
(cascading to its comments per the schema), invalidate the cache, and
append a `delete` audit event only when the task existed. -/
def deleteTask (s : ServerState) (taskId : Option String) (now : Nat) :
    Except String ServerState :=
  match sanitizeId taskId with
  | none => .error "Invalid taskId"
  | some safeId =>
    let task := s.store.tasks.find? (fun t => t.id = safeId)
    let tasks1 := s.store.tasks.filter (fun t => ¬ t.id = safeId)
    let comments1 := s.store.comments.filter (fun c => ¬ c.task_id = safeId)
    let store1 := { s.store with tasks := tasks1, comments := comments1 }
    let cache1 := cacheInvalidate s.cache
    let store2 :=
      match task with
      | some t => addAuditLogRow store1 "delete" safeId t.title none none "michael" now
      | none => store1
    .ok { store := store2, cache := cache1 }

/-- Source `addComment` (lines 803-833): sanitize, read the title, insert the
comment row (the foreign key makes this a store error when the task is
absent), invalidate the cache, and append a `comment` audit event when the
task existed. -/
def addComment (s : ServerState) (taskId : Option String) (comment : CommentInput)
    (now : Nat) : Except String ServerState :=
  match sanitizeId taskId with
  | none => .error "Invalid taskId"
  | some safeId =>
    let task := s.store.tasks.find? (fun t => t.id = safeId)
    match insertComments s.store [{ task_id := safeId, author := comment.author,
                                    text := comment.text, created_at := now }] with
    | .error e => .error e
    | .ok store1 =>
      let cache1 := cacheInvalidate s.cache
      let store2 :=
        match task with
        | some t => addAuditLogRow store1 "comment" safeId t.title none none comment.author now
        | none => store1
      .ok { store := store2, cache := cache1 }

/-! ## Bulk reconciliation (src/server.js lines 837-929) -/

/-- The `${c.author}:${c.text}` dedup key of the bulk comment diff. -/
def commentKey (author text : String) : String :=
  author ++ ":" ++ text

/-- The `(author, text)` keys of the comments stored for one task (the
per-task `dbCommentSet`). -/
def storedCommentKeys (store : Store) (id : String) : List String :=
  (store.comments.filter (fun c => c.task_id = id)).map (fun c => commentKey c.author c.text)

/-- The submitted comments of one task whose key is absent from the
stored set (those the loop schedules for insertion). -/
def newCommentsOf (store : Store) (task : FrontendTask) : List CommentInput :=
  task.comments.filter
    (fun c => ¬ (storedCommentKeys store task.id).contains (commentKey c.author c.text))

/-- The upsert row built for one submitted task (lines 868-885); the
`created_at` column is part of the payload only for tasks absent from the
read snapshot, and the modelled upsert ignores it on conflict accordingly. -/
def taskRowOf (task : FrontendTask) (now : Nat) : TaskRow :=
  { id := task.id
    title := task.title
    description := orNullStr task.description
    success_criteria := orNullStr task.successCriteria
    user_journey := orNullStr task.userJourney
    column_name := task.column
    priority := orElseStr task.priority "medium"
    task_type := orElseStr task.type "single"
    seen_at := orNullNat task.seenAt
    needs_laptop := task.needsLaptop
    needs_mobile := task.needsMobile
    archived := task.archived
    archived_at := orNullNat task.archivedAt
    celebration_image := orNullStr task.celebrationImage
    project_id := orNullStr task.projectId
    created_at := now
    updated_at := now }

/-- The comment rows one submitted task contributes to `commentsToInsert`. -/
def perTaskComments (store : Store) (task : FrontendTask) (now : Nat) : List CommentRow :=
  (newCommentsOf store task).map
    (fun c => { task_id := task.id, author := c.author, text := c.text, created_at := now })

/-- The audit entries one submitted task contributes: an `add` event when
its id is absent from the read snapshot, then one `comment` event per
newly inserted comment. -/
def perTaskAudit (store : Store) (task : FrontendTask) (now : Nat) : List AuditRow :=
  (if (store.tasks.find? (fun t => t.id = task.id)).isNone then
    [{ event_type := "add", task_id := task.id, task_title := task.title,
       author := "michael", created_at := now }]
  else []) ++
  (newCommentsOf store task).map
    (fun c => { event_type := "comment", task_id := task.id, task_title := task.title,
                author := orElseStr c.author "unknown", created_at := now })

/-- The three batches accumulated by the reconciliation loop. -/
structure BulkComputed where
  tasksToUpsert : List TaskRow
  commentsToInsert : List CommentRow
  auditEntries : List AuditRow
deriving Repr, DecidableEq

/-- The read-then-diff loop of `bulkSaveTasks` (lines 861-904): the store
is only read here, so the per-task contributions are independent and
concatenate in submission order. -/
def bulkCompute (store : Store) (fts : List FrontendTask) (now : Nat) : BulkComputed :=
  match fts with
  | [] => { tasksToUpsert := [], commentsToInsert := [], auditEntries := [] }
  | task :: rest =>
    let tail := bulkCompute store rest now
    { tasksToUpsert := taskRowOf task now :: tail.tasksToUpsert
      commentsToInsert := perTaskComments store task now ++ tail.commentsToInsert
      auditEntries := perTaskAudit store task now ++ tail.auditEntries }

/-- Upsert one row into the `tasks` table with `onConflict: 'id'`: update
the matching row (keeping its `created_at`, which the payload omits for
rows that existed at read time), or insert. -/
def upsertOne (ts : List TaskRow) (row : TaskRow) : List TaskRow :=
  if ts.any (fun t => t.id = row.id) then
    ts.map (fun t => if t.id = row.id then { row with created_at := t.created_at } else t)
  else
    ts ++ [row]

/-- Apply a batch upsert row by row. -/
def applyUpserts (ts : List TaskRow) (rows : List TaskRow) : List TaskRow :=
  rows.foldl upsertOne ts

/-- Source `bulkSaveTasks` (lines 837-929), Supabase branch: compute the diff
against a bulk read, upsert every submitted task, insert the deduplicated
comments, append the audit entries, and invalidate the cache.  No delete
is ever issued. -/
def bulkSaveTasks (s : ServerState) (frontendTasks : List FrontendTask) (now : Nat) :
    Except String ServerState :=
  let c := bulkCompute s.store frontendTasks now
  let store1 := { s.store with tasks := applyUpserts s.store.tasks c.tasksToUpsert }
  match insertComments store1 c.commentsToInsert with
  | .error e => .error e
  | .ok store2 =>
    let store3 := { store2 with audit := store2.audit ++ c.auditEntries }
    .ok { store := store3, cache := cacheInvalidate s.cache }

/-- The `LOCAL_MODE` branch of `bulkSaveTasks` (src/server.js lines
838-846): replace the in-memory mock task list with the submitted
snapshot wholesale (`mockData.tasks = frontendTasks.map(...)`). -/
def bulkSaveTasksLocal (_mockTasks : List FrontendTask) (frontendTasks : List FrontendTask) :
    List FrontendTask :=
  frontendTasks.map (fun t => { t with comments := t.comments })

/-- The committed result of a bulk save (see `bulkSaveTasks_eq_ok`). -/
def bulkApply (s : ServerState) (fts : List FrontendTask) (now : Nat) : ServerState :=
  { store := { s.store with
      tasks := applyUpserts s.store.tasks (bulkCompute s.store fts now).tasksToUpsert
      comments := s.store.comments ++ (bulkCompute s.store fts now).commentsToInsert
      audit := s.store.audit ++ (bulkCompute s.store fts now).auditEntries }
    cache := cacheInvalidate s.cache }

/-! ## Audit history (src/server.js lines 529-558 and 1327-1338) -/

/-- A history entry as shaped by `getHistory` (the JS names `from`/`to`
are Lean keywords; they are `fromColumn`/`toColumn` here). -/
structure HistoryEntry where
  type : String
  taskId : String
  taskTitle : String
  fromColumn : Option String
  toColumn : Option String
  author : String
  time : Nat
  service : String
deriving Repr, DecidableEq

/-- Insert into a list sorted by `created_at` descending (the
`order('created_at', ascending: false)` of the audit read). -/
def insertAuditDesc (x : AuditRow) : List AuditRow → List AuditRow
  | [] => [x]
  | y :: ys => if y.created_at ≤ x.created_at then x :: y :: ys else y :: insertAuditDesc x ys

/-- Sort audit rows by `created_at` descending. -/
def sortAuditDesc : List AuditRow → List AuditRow
  | [] => []
  | x :: xs => insertAuditDesc x (sortAuditDesc xs)

/-- The per-row shaping of the `getHistory` read. -/
def toHistoryEntry (h : AuditRow) : HistoryEntry :=
  { type := h.event_type
    taskId := h.task_id
    taskTitle := h.task_title
    fromColumn := h.from_column
    toColumn := h.to_column
    author := h.author
    time := h.created_at
    service := h.service }

/-- Source `getHistory` (Supabase branch): the newest 500 audit rows, mapped to
the history shape. -/
def getHistory (store : Store) : List HistoryEntry :=
  ((sortAuditDesc store.audit).take 500).map toHistoryEntry

/-- The `GET /api/history` handler (lines 1327-1338): filter by the
`author` query parameter when it is truthy and not `all`, then return the
first 100 entries. -/
def historyEndpoint (store : Store) (author : Option String) : List HistoryEntry :=
  let history := getHistory store
  let filtered :=
    match author with
    | some a =>
      if a ≠ "" ∧ a ≠ "all" then history.filter (fun (h : HistoryEntry) => h.author = a)
      else history
    | none => history
  filtered.take 100

/-! ## Genie session status (src/server.js lines 586-624) -/

/-- A row of the `genie_status` table (`session_key` is the primary key). -/
structure GenieRow where
  session_key : String
  label : String
  active : Bool
  current_task : Option String
  model : Option String
  updated_at : Nat
deriving Repr, DecidableEq

/-- A session as shaped by `getGenieStatus`. -/
structure GenieSession where
  sessionKey : String
  label : String
  active : Bool
  currentTask : Option String
  model : Option String
  updatedAt : Nat
deriving Repr, DecidableEq

/-- The aggregate returned by `getGenieStatus`. -/
structure GenieStatus where
  active : Bool
  currentTask : Option String
  updatedAt : Option Nat
  sessions : List GenieSession
deriving Repr, DecidableEq

/-- The 5-minute staleness window in milliseconds. -/
def STALENESS_WINDOW : Nat := 5 * 60 * 1000

/-- Source `getGenieStatus` (Supabase branch): keep only the rows whose
`updated_at` is within the 5-minute window of the read time, then
aggregate `active`, the first active session's `currentTask` (JS `||
null` strips an empty task, and `sessions[0]?.updatedAt || null` strips a
zero timestamp), and the surviving sessions. -/
def getGenieStatus (rows : List GenieRow) (now : Nat) : GenieStatus :=
  let sessions := (rows.filter (fun s => now - s.updated_at < STALENESS_WINDOW)).map
    (fun s => { sessionKey := s.session_key, label := s.label, active := s.active,
                currentTask := s.current_task, model := s.model,
                updatedAt := s.updated_at : GenieSession })
  let activeSession := sessions.find? (fun s => s.active)
  { active := sessions.any (fun s => s.active)
    currentTask := match activeSession with
      | some s => match s.currentTask with
        | some t => orNullStr t
        | none => none
      | none => none
    updatedAt := match sessions.head? with
      | some s => orNullNat (some s.updatedAt)
      | none => none
    sessions }

/-! ## `POST /api/tasks` action dispatch (src/server.js lines 1435-1502)
wrapped by the outer `try/catch` of `handleApiRequest` (line 1754). -/

/-- The outcome of one API request: 200 `{ok:true}`, 400 with a
structured error list, or the 500 produced by the outer catch. -/
inductive ApiResult where
  | ok200
  | badRequest (errors : List String)
  | serverError (message : String)
deriving Repr, DecidableEq

/-- A task action of the action-based API.  Body fields that may be
absent are `Option`s. -/
inductive TaskAction where
  | add (task : Option FrontendTask)
  | update (taskId : Option String) (updates : Option TaskUpdates) (author : Option String)
  | delete (taskId : Option String)
  | comment (taskId : Option String) (comment : Option CommentInput)
deriving Repr, DecidableEq

/-- The `POST /api/tasks` action dispatcher: validation and id
sanitization reject with 400 before any store call; a store error
propagates to the outer catch as a 500; otherwise the handler answers
200 `{ok:true}`. -/
def handleTaskAction (s : ServerState) (action : TaskAction) (now : Nat) :
    ApiResult × ServerState :=
  match action with
  | .add task =>
    let errs := validateTask task
    if errs.isEmpty then
      match task with
      | some t =>
        (match addTask s t now with
         | .ok (s', _) => (.ok200, s')
         | .error e => (.serverError e, s))
      | none => (.badRequest ["Task is required"], s)
    else (.badRequest errs, s)
  | .update taskId updates author =>
    match sanitizeId taskId with
    | none => (.badRequest ["Invalid taskId"], s)
    | some safeId =>
      match updates with
      | some u =>
        (match updateTask s (some safeId) u (author.getD "unknown") now with
         | .ok s' => (.ok200, s')
         | .error e => (.serverError e, s))
      | none => (.ok200, s)
  | .delete taskId =>
    match sanitizeId taskId with
    | none => (.badRequest ["Invalid taskId"], s)
    | some safeId =>
      (match deleteTask s (some safeId) now with
       | .ok s' => (.ok200, s')
       | .error e => (.serverError e, s))
  | .comment taskId comment =>
    match sanitizeId taskId with
    | none => (.badRequest ["Invalid taskId"], s)
    | some safeId =>
      let errs := validateComment comment
      if errs.isEmpty then
        match comment with
        | some c =>
          (match addComment s (some safeId) c now with
           | .ok s' => (.ok200, s')
           | .error e => (.serverError e, s))
        | none => (.badRequest ["Comment is required"], s)
      else (.badRequest errs, s)

/-! ## Project operations (src/server.js lines 1040-1148) and the
`POST /api/projects` dispatch (lines 1371-1432), Supabase branch.  The
project operations never touch the task read cache. -/

/-- A client-submitted project (the request-body `project` object);
missing string fields are encoded as `""`. -/
structure FrontendProject where
  id : String := ""
  title : String := ""
  description : String := ""
deriving Repr, DecidableEq

/-- The sparse update payload of the project `update` action; a present
field models a defined JS property. -/
structure ProjectUpdates where
  title : Option String := none
  description : Option String := none
  status : Option String := none
deriving Repr, DecidableEq

/-- Source `addProject` (lines 1040-1067): insert a row keyed by
`project.id || Date.now().toString()` — the raw client id, with no
sanitization — with status `planning`; a duplicate id is a store error
(`id` is the primary key).  Returns the new state and the id. -/
def addProject (s : ServerState) (project : FrontendProject) (now : Nat) :
    Except String (ServerState × String) :=
  let id := orElseStr project.id (toString now)
  if s.store.projects.any (fun p => p.id = id) then
    .error "duplicate key value violates unique constraint projects_pkey"
  else
    .ok ({ s with store := { s.store with projects := s.store.projects ++
      [{ id, title := project.title, description := orNullStr project.description,
         status := "planning", created_at := now, updated_at := now }] } }, id)

/-- Apply the sparse project update payload to a stored row, mirroring
src/server.js lines 1085-1088 (`updated_at` always refreshed). -/
def applyProjectPayload (p : ProjectRow) (u : ProjectUpdates) (now : Nat) : ProjectRow :=
  { p with
    updated_at := now
    title := u.title.getD p.title
    description := match u.description with
      | some d => some d
      | none => p.description
    status := u.status.getD p.status }

/-- Source `updateProject` (lines 1069-1093): sanitize the id, apply the
sparse patch plus `updated_at`; a zero-row update is not a store error. -/
def updateProject (s : ServerState) (projectId : Option String) (updates : ProjectUpdates)
    (now : Nat) : Except String ServerState :=
  match sanitizeId projectId with
  | none => .error "Invalid projectId"
  | some safeId =>
    let projects1 := s.store.projects.map
      (fun p => if p.id = safeId then applyProjectPayload p updates now else p)
    .ok { s with store := { s.store with projects := projects1 } }

/-- Source `deleteProject` (lines 1095-1120): sanitize the id, unlink the
project's tasks (`project_id` set to null, nothing else touched), then
delete the project row; its comments cascade per the schema. -/
def deleteProject (s : ServerState) (projectId : Option String) :
    Except String ServerState :=
  match sanitizeId projectId with
  | none => .error "Invalid projectId"
  | some safeId =>
    .ok { s with store := { s.store with
      tasks := s.store.tasks.map (fun t =>
        if t.project_id = some safeId then { t with project_id := none } else t)
      projects := s.store.projects.filter (fun p => ¬ p.id = safeId)
      project_comments := s.store.project_comments.filter
        (fun c => ¬ c.project_id = safeId) } }

/-- Source `addProjectComment` (lines 1122-1148): sanitize the id, insert
the `project_comments` row; the foreign key rejects a missing project. -/
def addProjectComment (s : ServerState) (projectId : Option String) (comment : CommentInput)
    (now : Nat) : Except String ServerState :=
  match sanitizeId projectId with
  | none => .error "Invalid projectId"
  | some safeId =>
    if s.store.projects.any (fun p => p.id = safeId) then
      .ok { s with store := { s.store with project_comments := s.store.project_comments ++
        [{ project_id := safeId, author := comment.author, text := comment.text,
           created_at := now }] } }
    else
      .error
        "insert on project_comments violates foreign key constraint project_comments_project_id_fkey"

/-- A project action of the `POST /api/projects` API.  `updates` is taken
as present because the source dereferences it unconditionally. -/
inductive ProjectAction where
  | add (project : Option FrontendProject)
  | update (projectId : Option String) (updates : ProjectUpdates)
  | delete (projectId : Option String)
  | comment (projectId : Option String) (comment : Option CommentInput)
deriving Repr, DecidableEq

/-- The `POST /api/projects` action dispatcher (lines 1371-1432): the
add action validates only the title (`!project?.title`); update, delete,
and comment sanitize the project id and answer 400 on failure before any
store access; a store error surfaces through the outer catch as a 500. -/
def handleProjectAction (s : ServerState) (action : ProjectAction) (now : Nat) :
    ApiResult × ServerState :=
  match action with
  | .add project =>
    match project with
    | none => (.badRequest ["Project title is required"], s)
    | some p =>
      if p.title = "" then (.badRequest ["Project title is required"], s)
      else
        match addProject s p now with
        | .ok (s', _) => (.ok200, s')
        | .error e => (.serverError e, s)
  | .update projectId updates =>
    match sanitizeId projectId with
    | none => (.badRequest ["Invalid projectId"], s)
    | some safeId =>
      match updateProject s (some safeId) updates now with
      | .ok s' => (.ok200, s')
      | .error e => (.serverError e, s)
  | .delete projectId =>
    match sanitizeId projectId with
    | none => (.badRequest ["Invalid projectId"], s)
    | some safeId =>
      match deleteProject s (some safeId) with
      | .ok s' => (.ok200, s')
      | .error e => (.serverError e, s)
  | .comment projectId comment =>
    match sanitizeId projectId with
    | none => (.badRequest ["Invalid projectId"], s)
    | some safeId =>
      match comment with
      | none => (.badRequest ["Comment text and author required"], s)
      | some c =>
        if c.text = "" ∨ c.author = "" then
          (.badRequest ["Comment text and author required"], s)
        else
          match addProjectComment s (some safeId) c now with
          | .ok s' => (.ok200, s')
          | .error e => (.serverError e, s)

/-! ## Concrete example data used by the closed instances below -/

/-- A stored task, used by concrete examples. -/
def exRowA : TaskRow :=
  { id := "a", title := "A", column_name := "inbox", created_at := 1, updated_at := 1 }

/-- A server state holding the single stored task `exRowA`. -/
def exStateA : ServerState :=
  { store := { tasks := [exRowA] } }

/-- A new task `t1` carrying one comment, submitted by examples. -/
def exFt1 : FrontendTask :=
  { id := "t1", title := "T1", column := "inbox",
    comments := [{ author := "genie", text := "hello" }] }

/-- A snapshot submitting only `exFt1`. -/
def exFtsB : List FrontendTask :=
  [exFt1]

/-- The state produced by bulk-saving `exFtsB` over `exStateA`. -/
def exBulkResult : ServerState :=
  (bulkSaveTasks exStateA exFtsB 5).toOption.getD {}

/-- The state produced by bulk-saving `exFtsB` twice over `exStateA`. -/
def exBulkResult2 : ServerState :=
  (bulkSaveTasks exBulkResult exFtsB 6).toOption.getD {}

/-- The state produced by adding `exFt1` to `exStateA`. -/
def exAddResult : ServerState × String :=
  (addTask exStateA exFt1 9).toOption.getD ({}, "")

/-- The state produced by updating task `a` of `exStateA`. -/
def exUpdateResult : ServerState :=
  (updateTask exStateA (some "a") { column := some "done" } "unknown" 9).toOption.getD {}

/-- The state produced by deleting task `a` of `exStateA`. -/
def exDeleteResult : ServerState :=
  (deleteTask exStateA (some "a") 9).toOption.getD {}

/-- The state produced by commenting on task `a` of `exStateA`. -/
def exCommentResult : ServerState :=
  (addComment exStateA (some "a") { author := "genie", text := "done" } 9).toOption.getD {}

/-- Fresh and stale session rows for the C8 witness. -/
def exGenieRows : List GenieRow :=
  [{ session_key := "s1", label := "L", active := true, current_task := some "t",
     model := none, updated_at := 200000 },
   { session_key := "s2", label := "old", active := true, current_task := some "x",
     model := none, updated_at := 0 }]

/-- The empty base server state. -/
def exState0 : ServerState := {}

/-- A client task whose id contains a character outside the identifier
charset. -/
def exBadTask : FrontendTask :=
  { id := "bad!id", title := "x", column := "inbox" }

/-- A client project whose id contains a character outside the identifier
charset. -/
def exBadProject : FrontendProject :=
  { id := "bad!id", title := "x" }

/-- A store with two audit rows, for the C10 witness. -/
def exHistStore : Store :=
  { audit := [{ event_type := "add", task_id := "a", task_title := "A", created_at := 1 },
              { event_type := "move", task_id := "a", task_title := "A",
                author := "genie", created_at := 5 }] }

/-! ## General list helpers -/

theorem map_eq_self_of_eq {α : Type} {l : List α} {f : α → α} (h : ∀ x ∈ l, f x = x) :
    l.map f = l := by
  induction l with
  | nil => rfl
  | cons x xs ih =>
    simp only [List.map_cons, h x (List.mem_cons_self x xs)]
    rw [ih (fun y hy => h y (List.mem_cons_of_mem x hy))]

theorem contains_iff_mem {l : List String} {s : String} : l.contains s = true ↔ s ∈ l := by
  simp [List.contains]

theorem any_map_eq {α β : Type} (l : List α) (f : α → β) (p : β → Bool) :
    (l.map f).any p = l.any (fun a => p (f a)) := by
  induction l with
  | nil => rfl
  | cons x xs ih => simp [ih]

/-! ## Characterizations of the bulk reconciliation loop -/

theorem bulkCompute_tasksToUpsert (store : Store) (fts : List FrontendTask) (now : Nat) :
    (bulkCompute store fts now).tasksToUpsert = fts.map (fun ft => taskRowOf ft now) := by
  induction fts with
  | nil => rfl
  | cons x xs ih => simp [bulkCompute, ih]

theorem bulkCompute_commentsToInsert (store : Store) (fts : List FrontendTask) (now : Nat) :
    (bulkCompute store fts now).commentsToInsert =
      fts.flatMap (fun ft => perTaskComments store ft now) := by
  induction fts with
  | nil => rfl
  | cons x xs ih => simp [bulkCompute, ih]

theorem bulkCompute_auditEntries (store : Store) (fts : List FrontendTask) (now : Nat) :
    (bulkCompute store fts now).auditEntries =
      fts.flatMap (fun ft => perTaskAudit store ft now) := by
  induction fts with
  | nil => rfl
  | cons x xs ih => simp [bulkCompute, ih]

/-! ## Upsert lemmas -/

theorem length_upsertOne_of_present {ts : List TaskRow} {row : TaskRow}
    (h : ts.any (fun t => t.id = row.id) = true) :
    (upsertOne ts row).length = ts.length := by
  simp [upsertOne, h]

theorem length_le_upsertOne (ts : List TaskRow) (row : TaskRow) :
    ts.length ≤ (upsertOne ts row).length := by
  unfold upsertOne
  split
  · simp
  · simp

theorem any_id_upsertOne_of_any {ts : List TaskRow} {row : TaskRow} {i : String}
    (h : ts.any (fun t => t.id = i) = true) :
    (upsertOne ts row).any (fun t => t.id = i) = true := by
  unfold upsertOne
  split
  · rw [List.any_eq_true] at h ⊢
    obtain ⟨t, ht, hti⟩ := h
    by_cases hc : t.id = row.id
    · refine ⟨{ row with created_at := t.created_at }, ?_, ?_⟩
      · exact List.mem_map.mpr ⟨t, ht, by simp [hc]⟩
      · simp only [decide_eq_true_eq] at hti ⊢
        rw [← hc]
        exact hti
    · refine ⟨t, ?_, hti⟩
      exact List.mem_map.mpr ⟨t, ht, by simp [hc]⟩
  · rw [List.any_eq_true] at h ⊢
    obtain ⟨t, ht, hti⟩ := h
    exact ⟨t, List.mem_append_left _ ht, hti⟩

theorem any_id_upsertOne_self (ts : List TaskRow) (row : TaskRow) :
    (upsertOne ts row).any (fun t => t.id = row.id) = true := by
  unfold upsertOne
  split
  · next h =>
    rw [List.any_eq_true] at h ⊢
    obtain ⟨t, ht, hti⟩ := h
    simp only [decide_eq_true_eq] at hti
    exact ⟨{ row with created_at := t.created_at },
      List.mem_map.mpr ⟨t, ht, by simp [hti]⟩, by simp⟩
  · rw [List.any_eq_true]
    exact ⟨row, List.mem_append_right _ (List.mem_singleton.mpr rfl), by simp⟩

theorem mem_upsertOne_of_ne {ts : List TaskRow} {row t : TaskRow}
    (ht : t ∈ ts) (hne : t.id ≠ row.id) : t ∈ upsertOne ts row := by
  unfold upsertOne
  split
  · exact List.mem_map.mpr ⟨t, ht, by simp [hne]⟩
  · exact List.mem_append_left _ ht

theorem mem_applyUpserts {rows : List TaskRow} {ts : List TaskRow} {t : TaskRow}
    (ht : t ∈ ts) (h : ∀ r ∈ rows, r.id ≠ t.id) : t ∈ applyUpserts ts rows := by
  induction rows generalizing ts with
  | nil => exact ht
  | cons r rs ih =>
    have hr : t ∈ upsertOne ts r :=
      mem_upsertOne_of_ne ht (fun hc => h r (List.mem_cons_self r rs) hc.symm)
    exact ih hr (fun x hx => h x (List.mem_cons_of_mem r hx))

theorem length_le_applyUpserts (ts : List TaskRow) (rows : List TaskRow) :
    ts.length ≤ (applyUpserts ts rows).length := by
  induction rows generalizing ts with
  | nil => exact Nat.le_refl _
  | cons r rs ih =>
    exact Nat.le_trans (length_le_upsertOne ts r) (ih (upsertOne ts r))

theorem any_id_applyUpserts_of_any {ts : List TaskRow} {rows : List TaskRow} {i : String}
    (h : ts.any (fun t => t.id = i) = true) :
    (applyUpserts ts rows).any (fun t => t.id = i) = true := by
  induction rows generalizing ts with
  | nil => exact h
  | cons r rs ih => exact ih (any_id_upsertOne_of_any h)

theorem any_id_applyUpserts_of_mem {ts : List TaskRow} {rows : List TaskRow} {i : String}
    (h : ∃ r ∈ rows, r.id = i) :
    (applyUpserts ts rows).any (fun t => t.id = i) = true := by
  induction rows generalizing ts with
  | nil => exact absurd h (by simp)
  | cons r rs ih =>
    have hstep : applyUpserts ts (r :: rs) = applyUpserts (upsertOne ts r) rs := rfl
    rw [hstep]
    obtain ⟨r0, hr0, hid⟩ := h
    rcases List.mem_cons.mp hr0 with heq | hmem
    · subst heq
      subst hid
      exact any_id_applyUpserts_of_any (any_id_upsertOne_self ts r0)
    · exact ih ⟨r0, hmem, hid⟩

theorem length_applyUpserts_of_all_present {ts : List TaskRow} {rows : List TaskRow}
    (h : ∀ r ∈ rows, ts.any (fun t => t.id = r.id) = true) :
    (applyUpserts ts rows).length = ts.length := by
  induction rows generalizing ts with
  | nil => rfl
  | cons r rs ih =>
    have h1 := length_upsertOne_of_present (h r (List.mem_cons_self r rs))
    rw [applyUpserts, List.foldl_cons, ← applyUpserts, ih, h1]
    intro r' hr'
    exact any_id_upsertOne_of_any (h r' (List.mem_cons_of_mem r hr'))

/-! ## The bulk save always commits -/

theorem perTaskComments_task_id {store : Store} {ft : FrontendTask} {now : Nat} {r : CommentRow}
    (h : r ∈ perTaskComments store ft now) : r.task_id = ft.id := by
  unfold perTaskComments at h
  obtain ⟨c, _, hc⟩ := List.mem_map.mp h
  rw [← hc]

theorem bulk_comment_fk (s : ServerState) (fts : List FrontendTask) (now : Nat) :
    ((bulkCompute s.store fts now).commentsToInsert).all
      (fun r => (applyUpserts s.store.tasks (bulkCompute s.store fts now).tasksToUpsert).any
        (fun t => t.id = r.task_id)) = true := by
  rw [List.all_eq_true]
  intro r hr
  rw [bulkCompute_commentsToInsert] at hr
  obtain ⟨ft, hft, hrin⟩ := List.mem_flatMap.mp hr
  have hid : r.task_id = ft.id := perTaskComments_task_id hrin
  rw [hid]
  apply any_id_applyUpserts_of_mem
  rw [bulkCompute_tasksToUpsert]
  exact ⟨taskRowOf ft now, List.mem_map.mpr ⟨ft, hft, rfl⟩, rfl⟩

/-- Source `bulkSaveTasks` always commits: the comment batch only references
tasks that were just upserted, so the foreign-key check passes and the
result is exactly "upsert the rows, append the comments, append the audit
entries, invalidate the cache". -/
theorem bulkSaveTasks_eq_ok (s : ServerState) (fts : List FrontendTask) (now : Nat) :
    bulkSaveTasks s fts now = .ok (bulkApply s fts now) := by
  have hfk := bulk_comment_fk s fts now
  simp only [bulkSaveTasks, insertComments, bulkApply]
  rw [if_pos hfk]

/-! ## C1: bulk reconciliation never deletes (database-backed mode) -/

/-- C1 (amended): in the database-backed mode, `bulkSaveTasks` never
deletes a stored task: every stored task whose id is absent from the
submitted snapshot is still in the store, unchanged, afterwards, and the
number of stored tasks never decreases. -/
theorem c1_bulk_never_deletes (s : ServerState) (fts : List FrontendTask) (now : Nat)
    (s' : ServerState) (h : bulkSaveTasks s fts now = .ok s') :
    (∀ t ∈ s.store.tasks, (∀ ft ∈ fts, ft.id ≠ t.id) → t ∈ s'.store.tasks) ∧
    s.store.tasks.length ≤ s'.store.tasks.length := by
  rw [bulkSaveTasks_eq_ok] at h
  injection h with h
  subst h
  constructor
  · intro t ht habsent
    apply mem_applyUpserts ht
    intro r hr
    rw [bulkCompute_tasksToUpsert] at hr
    obtain ⟨ft, hft, hrft⟩ := List.mem_map.mp hr
    rw [← hrft]
    exact habsent ft hft
  · exact length_le_applyUpserts _ _

/-- Witness for C1: bulk-saving a snapshot that omits the stored task
`a` keeps that task, and the task count does not decrease. -/
theorem c1_bulk_never_deletes_witness :
    (∀ t ∈ exStateA.store.tasks, (∀ ft ∈ exFtsB, ft.id ≠ t.id) → t ∈ exBulkResult.store.tasks) ∧
    exStateA.store.tasks.length ≤ exBulkResult.store.tasks.length :=
  c1_bulk_never_deletes exStateA exFtsB 5 exBulkResult (by rfl)

/-- Counterexample for C1 as stated: in `LOCAL_MODE`, the bulk save
replaces the task list wholesale, so a stored task absent from the
submitted snapshot is dropped and the task count decreases. -/
theorem c1_counterexample :
    ({ id := "t2", title := "T2" } : FrontendTask) ∈
        [({ id := "t2", title := "T2" } : FrontendTask)] ∧
    bulkSaveTasksLocal [{ id := "t2", title := "T2" }] [] = [] ∧
    (bulkSaveTasksLocal [{ id := "t2", title := "T2" }] []).length <
      [({ id := "t2", title := "T2" } : FrontendTask)].length := by
  refine ⟨List.mem_singleton.mpr rfl, rfl, ?_⟩
  decide

/-! ## C2: bulk reconciliation is idempotent -/

theorem any_id_after_bulk (s : ServerState) (fts : List FrontendTask) (now : Nat)
    (ft : FrontendTask) (hft : ft ∈ fts) :
    ((bulkApply s fts now).store.tasks).any (fun t => t.id = ft.id) = true := by
  apply any_id_applyUpserts_of_mem
  rw [bulkCompute_tasksToUpsert]
  exact ⟨taskRowOf ft now, List.mem_map.mpr ⟨ft, hft, rfl⟩, rfl⟩

theorem key_mem_after_bulk (s : ServerState) (fts : List FrontendTask) (now : Nat)
    (ft : FrontendTask) (hft : ft ∈ fts) (c : CommentInput) (hc : c ∈ ft.comments) :
    commentKey c.author c.text ∈ storedCommentKeys (bulkApply s fts now).store ft.id := by
  have hsplit : storedCommentKeys (bulkApply s fts now).store ft.id =
      storedCommentKeys s.store ft.id ++
        (((bulkCompute s.store fts now).commentsToInsert.filter
          (fun r => r.task_id = ft.id)).map (fun r => commentKey r.author r.text)) := by
    unfold storedCommentKeys
    show ((s.store.comments ++ (bulkCompute s.store fts now).commentsToInsert).filter _).map _ = _
    rw [List.filter_append, List.map_append]
  rw [hsplit, List.mem_append]
  by_cases hk : commentKey c.author c.text ∈ storedCommentKeys s.store ft.id
  · exact Or.inl hk
  · right
    have hcnew : c ∈ newCommentsOf s.store ft := by
      unfold newCommentsOf
      rw [List.mem_filter]
      refine ⟨hc, ?_⟩
      simp only [decide_eq_true_eq]
      intro hcont
      exact hk (contains_iff_mem.mp hcont)
    have hrow : ({ task_id := ft.id, author := c.author, text := c.text, created_at := now } :
        CommentRow) ∈ (bulkCompute s.store fts now).commentsToInsert := by
      rw [bulkCompute_commentsToInsert]
      exact List.mem_flatMap.mpr ⟨ft, hft, List.mem_map.mpr ⟨c, hcnew, rfl⟩⟩
    exact List.mem_map.mpr
      ⟨_, List.mem_filter.mpr ⟨hrow, by simp⟩, rfl⟩

theorem newCommentsOf_after_bulk (s : ServerState) (fts : List FrontendTask) (now : Nat)
    (ft : FrontendTask) (hft : ft ∈ fts) :
    newCommentsOf (bulkApply s fts now).store ft = [] := by
  unfold newCommentsOf
  rw [List.filter_eq_nil_iff]
  intro c hc
  have hmem := key_mem_after_bulk s fts now ft hft c hc
  simp only [decide_eq_true_eq, not_not]
  exact contains_iff_mem.mpr hmem

theorem perTaskAudit_after_bulk (s : ServerState) (fts : List FrontendTask) (now now2 : Nat)
    (ft : FrontendTask) (hft : ft ∈ fts) :
    perTaskAudit (bulkApply s fts now).store ft now2 = [] := by
  unfold perTaskAudit
  rw [newCommentsOf_after_bulk s fts now ft hft]
  have hsome : ((bulkApply s fts now).store.tasks.find? (fun t => t.id = ft.id)).isSome = true := by
    rw [List.find?_isSome]
    have := any_id_after_bulk s fts now ft hft
    rw [List.any_eq_true] at this
    exact this
  obtain ⟨x, hx⟩ := Option.isSome_iff_exists.mp hsome
  rw [hx]
  rfl

/-- C2: running `bulkSaveTasks` a second time with the same snapshot, on
the state produced by the first run, creates no new task row, inserts no
comment, and appends no audit event. -/
theorem c2_bulk_idempotent (s : ServerState) (fts : List FrontendTask) (now1 now2 : Nat)
    (s1 : ServerState) (h : bulkSaveTasks s fts now1 = .ok s1) :
    ∃ s2, bulkSaveTasks s1 fts now2 = .ok s2 ∧
      s2.store.tasks.length = s1.store.tasks.length ∧
      s2.store.comments = s1.store.comments ∧
      s2.store.audit = s1.store.audit := by
  rw [bulkSaveTasks_eq_ok] at h
  injection h with h
  subst h
  refine ⟨bulkApply (bulkApply s fts now1) fts now2, bulkSaveTasks_eq_ok _ _ _, ?_, ?_, ?_⟩
  · show (applyUpserts (bulkApply s fts now1).store.tasks
      (bulkCompute (bulkApply s fts now1).store fts now2).tasksToUpsert).length = _
    apply length_applyUpserts_of_all_present
    intro r hr
    rw [bulkCompute_tasksToUpsert] at hr
    obtain ⟨ft, hft, hrft⟩ := List.mem_map.mp hr
    subst hrft
    exact any_id_after_bulk s fts now1 ft hft
  · show (bulkApply s fts now1).store.comments ++
      (bulkCompute (bulkApply s fts now1).store fts now2).commentsToInsert =
        (bulkApply s fts now1).store.comments
    have hnil : (bulkCompute (bulkApply s fts now1).store fts now2).commentsToInsert = [] := by
      rw [bulkCompute_commentsToInsert, List.flatMap_eq_nil_iff]
      intro ft hft
      unfold perTaskComments
      rw [newCommentsOf_after_bulk s fts now1 ft hft]
      rfl
    rw [hnil, List.append_nil]
  · show (bulkApply s fts now1).store.audit ++
      (bulkCompute (bulkApply s fts now1).store fts now2).auditEntries =
        (bulkApply s fts now1).store.audit
    have hnil : (bulkCompute (bulkApply s fts now1).store fts now2).auditEntries = [] := by
      rw [bulkCompute_auditEntries, List.flatMap_eq_nil_iff]
      intro ft hft
      exact perTaskAudit_after_bulk s fts now1 now2 ft hft
    rw [hnil, List.append_nil]

/-- Witness for C2: a second bulk save of `exFtsB` over the state the
first one produced adds no task row, comment, or audit event. -/
theorem c2_bulk_idempotent_witness :
    ∃ s2, bulkSaveTasks exBulkResult exFtsB 6 = .ok s2 ∧
      s2.store.tasks.length = exBulkResult.store.tasks.length ∧
      s2.store.comments = exBulkResult.store.comments ∧
      s2.store.audit = exBulkResult.store.audit :=
  c2_bulk_idempotent exStateA exFtsB 5 6 exBulkResult (by rfl)

/-! ## C7: per-task comment dedup in the bulk reconciliation -/

theorem filter_flatMap_isolate {β : Type} (f : FrontendTask → List β) (p : β → Bool)
    (fts : List FrontendTask) (t : FrontendTask) (hmem : t ∈ fts)
    (hnodup : (fts.map FrontendTask.id).Nodup)
    (hother : ∀ ft, ft.id ≠ t.id → (f ft).filter p = []) :
    (fts.flatMap f).filter p = (f t).filter p := by
  induction fts with
  | nil => cases hmem
  | cons x xs ih =>
    rw [List.map_cons, List.nodup_cons] at hnodup
    rw [List.flatMap_cons, List.filter_append]
    rcases List.mem_cons.mp hmem with heq | hmem'
    · subst heq
      have hxs : ∀ ft ∈ xs, ft.id ≠ t.id := by
        intro ft hft hcontra
        exact hnodup.1 (List.mem_map.mpr ⟨ft, hft, hcontra⟩)
      have hrest : (xs.flatMap f).filter p = [] := by
        rw [List.filter_flatMap, List.flatMap_eq_nil_iff]
        intro ft hft
        exact hother ft (hxs ft hft)
      rw [hrest, List.append_nil]
    · have hx : x.id ≠ t.id := by
        intro hcontra
        exact hnodup.1 (hcontra ▸ List.mem_map.mpr ⟨t, hmem', rfl⟩)
      rw [hother x hx, List.nil_append]
      exact ih hmem' hnodup.2

theorem commentsToInsert_isolate (store : Store) (fts : List FrontendTask) (now : Nat)
    (t : FrontendTask) (hmem : t ∈ fts) (hnodup : (fts.map FrontendTask.id).Nodup) :
    ((bulkCompute store fts now).commentsToInsert.filter (fun r => r.task_id = t.id)) =
      perTaskComments store t now := by
  rw [bulkCompute_commentsToInsert]
  rw [filter_flatMap_isolate (fun ft => perTaskComments store ft now) _ fts t hmem hnodup ?_]
  · rw [List.filter_eq_self]
    intro r hr
    simp [perTaskComments_task_id hr]
  · intro ft hft
    rw [List.filter_eq_nil_iff]
    intro r hr
    simp [perTaskComments_task_id hr, hft]

theorem perTaskAudit_task_id {store : Store} {ft : FrontendTask} {now : Nat} {e : AuditRow}
    (h : e ∈ perTaskAudit store ft now) : e.task_id = ft.id := by
  unfold perTaskAudit at h
  rcases List.mem_append.mp h with h1 | h2
  · split at h1
    · rw [List.mem_singleton.mp h1]
    · cases h1
  · obtain ⟨c, _, hc⟩ := List.mem_map.mp h2
    rw [← hc]

theorem auditEntries_isolate (store : Store) (fts : List FrontendTask) (now : Nat)
    (t : FrontendTask) (hmem : t ∈ fts) (hnodup : (fts.map FrontendTask.id).Nodup) :
    ((bulkCompute store fts now).auditEntries.filter
        (fun e => e.event_type = "comment" ∧ e.task_id = t.id)) =
      (newCommentsOf store t).map
        (fun c => { event_type := "comment", task_id := t.id, task_title := t.title,
                    author := orElseStr c.author "unknown", created_at := now : AuditRow }) := by
  rw [bulkCompute_auditEntries]
  rw [filter_flatMap_isolate (fun ft => perTaskAudit store ft now) _ fts t hmem hnodup ?_]
  · unfold perTaskAudit
    rw [List.filter_append]
    have hadd : ((if (store.tasks.find? (fun x => x.id = t.id)).isNone then
        [{ event_type := "add", task_id := t.id, task_title := t.title,
           author := "michael", created_at := now : AuditRow }]
      else []).filter (fun e => e.event_type = "comment" ∧ e.task_id = t.id)) = [] := by
      split
      · simp
      · rfl
    rw [hadd, List.nil_append, List.filter_eq_self]
    intro e he
    obtain ⟨c, _, hc⟩ := List.mem_map.mp he
    subst hc
    simp
  · intro ft hft
    rw [List.filter_eq_nil_iff]
    intro e he
    have := perTaskAudit_task_id he
    simp [this, hft]

/-- C7: if a submitted task's comment list contains exactly one entry
whose `(author, text)` key is absent from the stored comments, the bulk
reconciliation inserts exactly that one comment row for the task and
emits exactly one `comment` audit event for it, and it never schedules an
insert for a submitted comment whose key already exists. -/
theorem c7_comment_dedup (s : ServerState) (fts : List FrontendTask) (now : Nat)
    (t : FrontendTask) (c0 : CommentInput) (hmem : t ∈ fts)
    (hnodup : (fts.map FrontendTask.id).Nodup)
    (hnew : newCommentsOf s.store t = [c0])
    (s' : ServerState) (h : bulkSaveTasks s fts now = .ok s') :
    s'.store.comments.filter (fun r => r.task_id = t.id) =
      s.store.comments.filter (fun r => r.task_id = t.id) ++
        [{ task_id := t.id, author := c0.author, text := c0.text, created_at := now }] ∧
    s'.store.audit.filter (fun e => e.event_type = "comment" ∧ e.task_id = t.id) =
      s.store.audit.filter (fun e => e.event_type = "comment" ∧ e.task_id = t.id) ++
        [{ event_type := "comment", task_id := t.id, task_title := t.title,
           author := orElseStr c0.author "unknown", created_at := now }] ∧
    ∀ c ∈ t.comments,
      (storedCommentKeys s.store t.id).contains (commentKey c.author c.text) = true →
      ∀ r ∈ (bulkCompute s.store fts now).commentsToInsert,
        ¬ (r.task_id = t.id ∧ r.author = c.author ∧ r.text = c.text) := by
  rw [bulkSaveTasks_eq_ok] at h
  injection h with h
  subst h
  refine ⟨?_, ?_, ?_⟩
  · show ((s.store.comments ++ (bulkCompute s.store fts now).commentsToInsert).filter _) = _
    rw [List.filter_append, commentsToInsert_isolate s.store fts now t hmem hnodup]
    unfold perTaskComments
    rw [hnew]
    rfl
  · show ((s.store.audit ++ (bulkCompute s.store fts now).auditEntries).filter _) = _
    rw [List.filter_append, auditEntries_isolate s.store fts now t hmem hnodup, hnew]
    rfl
  · intro c hc hcont r hr hmatch
    obtain ⟨hrt, hra, hrx⟩ := hmatch
    have hrfil : r ∈ (bulkCompute s.store fts now).commentsToInsert.filter
        (fun r => r.task_id = t.id) :=
      List.mem_filter.mpr ⟨hr, by simp [hrt]⟩
    rw [commentsToInsert_isolate s.store fts now t hmem hnodup] at hrfil
    unfold perTaskComments at hrfil
    rw [hnew] at hrfil
    have hr0 : r = { task_id := t.id, author := c0.author, text := c0.text, created_at := now } :=
      List.mem_singleton.mp hrfil
    have hkey0 : c0 ∈ newCommentsOf s.store t := by
      rw [hnew]
      exact List.mem_singleton.mpr rfl
    unfold newCommentsOf at hkey0
    have hpred := (List.mem_filter.mp hkey0).2
    simp only [decide_eq_true_eq] at hpred
    apply hpred
    have hca : c0.author = c.author := by rw [hr0] at hra; exact hra
    have hct : c0.text = c.text := by rw [hr0] at hrx; exact hrx
    rw [commentKey, hca, hct]
    exact hcont

/-- Witness for C7: bulk-saving `exFtsB` over `exStateA` inserts exactly
the one new comment of `t1` and emits exactly one `comment` audit event
for it. -/
theorem c7_comment_dedup_witness :
    exBulkResult.store.comments.filter (fun r => r.task_id = exFt1.id) =
      exStateA.store.comments.filter (fun r => r.task_id = exFt1.id) ++
        [{ task_id := exFt1.id, author := "genie", text := "hello", created_at := 5 }] ∧
    exBulkResult.store.audit.filter
        (fun e => e.event_type = "comment" ∧ e.task_id = exFt1.id) =
      exStateA.store.audit.filter
        (fun e => e.event_type = "comment" ∧ e.task_id = exFt1.id) ++
        [{ event_type := "comment", task_id := exFt1.id, task_title := exFt1.title,
           author := orElseStr "genie" "unknown", created_at := 5 }] ∧
    ∀ c ∈ exFt1.comments,
      (storedCommentKeys exStateA.store exFt1.id).contains (commentKey c.author c.text) = true →
      ∀ r ∈ (bulkCompute exStateA.store exFtsB 5).commentsToInsert,
        ¬ (r.task_id = exFt1.id ∧ r.author = c.author ∧ r.text = c.text) :=
  c7_comment_dedup exStateA exFtsB 5 exFt1 { author := "genie", text := "hello" }
    (List.mem_singleton.mpr rfl) (by decide) (by rfl) exBulkResult (by rfl)

/-! ## C4: author inference for column moves -/

/-- C4: a column-changing update with no explicit author (`unknown`)
emits a `move` audit event authored `michael` when the destination is
`done`, `genie` when it is `review` or `in_progress`, and `unknown`
otherwise. -/
theorem c4_move_author_inference (s : ServerState) (tid : Option String) (u : TaskUpdates)
    (now : Nat) (safeId : String) (cur : TaskRow) (c : String)
    (hid : sanitizeId tid = some safeId)
    (hfind : s.store.tasks.find? (fun t => t.id = safeId) = some cur)
    (hcol : u.column = some c) (hne : c ≠ "") (hdiff : c ≠ cur.column_name) :
    ∃ s', updateTask s tid u "unknown" now = .ok s' ∧
      s'.store.audit = s.store.audit ++
        [{ event_type := "move", task_id := safeId, task_title := cur.title,
           from_column := some cur.column_name, to_column := some c,
           author := if c = "done" then "michael"
             else if c = "review" ∨ c = "in_progress" then "genie" else "unknown",
           service := SERVICE_NAME, created_at := now }] := by
  have hauth : orElseStr (if c = "done" then "michael"
      else if c = "review" ∨ c = "in_progress" then "genie" else "unknown") "unknown" =
      (if c = "done" then "michael"
        else if c = "review" ∨ c = "in_progress" then "genie" else "unknown") := by
    by_cases h1 : c = "done"
    · simp [h1, orElseStr]
    · by_cases h2 : c = "review" ∨ c = "in_progress"
      · simp [h1, h2, orElseStr]
      · simp [h1, h2, orElseStr]
  simp only [updateTask, hid, hfind, hcol]
  rw [if_pos ⟨hne, hdiff⟩]
  refine ⟨_, rfl, ?_⟩
  simp only [addAuditLogRow, if_pos rfl, if_true]
  rw [hauth]

/-- Witness for C4: moving the stored task `a` to `done` with no explicit
author records `michael` as the move author. -/
theorem c4_move_author_inference_witness :
    ∃ s', updateTask exStateA (some "a") { column := some "done" } "unknown" 9 = .ok s' ∧
      s'.store.audit = exStateA.store.audit ++
        [{ event_type := "move", task_id := "a", task_title := exRowA.title,
           from_column := some exRowA.column_name, to_column := some "done",
           author := if "done" = "done" then "michael"
             else if "done" = "review" ∨ "done" = "in_progress" then "genie" else "unknown",
           service := SERVICE_NAME, created_at := 9 }] :=
  c4_move_author_inference exStateA (some "a") { column := some "done" } 9 "a" exRowA "done"
    (by rfl) (by rfl) rfl (by decide) (by decide)

/-! ## C5: every successful write invalidates the read cache -/

theorem invalidated_next_read (store : Store) (c : Cache) (n : Nat) :
    (getTasks store (cacheInvalidate c) n false).1 = formatSnapshot store := by
  rfl

/-- C5: every successful write operation (single add, update, delete,
comment, and the bulk save) leaves the cache invalidated, so the next
`getTasks` at any later time bypasses the cached snapshot and serves a
fresh read of the written store. -/
theorem c5_writes_invalidate_cache (s : ServerState) (now : Nat) :
    (∀ task r, addTask s task now = .ok r →
      r.1.cache = { tasks := none, tasksExpiry := 0 } ∧
      ∀ n, (getTasks r.1.store r.1.cache n false).1 = formatSnapshot r.1.store) ∧
    (∀ tid u a s', updateTask s tid u a now = .ok s' →
      s'.cache = { tasks := none, tasksExpiry := 0 } ∧
      ∀ n, (getTasks s'.store s'.cache n false).1 = formatSnapshot s'.store) ∧
    (∀ tid s', deleteTask s tid now = .ok s' →
      s'.cache = { tasks := none, tasksExpiry := 0 } ∧
      ∀ n, (getTasks s'.store s'.cache n false).1 = formatSnapshot s'.store) ∧
    (∀ tid c s', addComment s tid c now = .ok s' →
      s'.cache = { tasks := none, tasksExpiry := 0 } ∧
      ∀ n, (getTasks s'.store s'.cache n false).1 = formatSnapshot s'.store) ∧
    (∀ fts s', bulkSaveTasks s fts now = .ok s' →
      s'.cache = { tasks := none, tasksExpiry := 0 } ∧
      ∀ n, (getTasks s'.store s'.cache n false).1 = formatSnapshot s'.store) := by
  refine ⟨?_, ?_, ?_, ?_, ?_⟩
  · intro task r h
    simp only [addTask] at h
    split at h
    · cases h
    · injection h with h
      subst h
      exact ⟨rfl, fun n => invalidated_next_read _ s.cache n⟩
  · intro tid u a s' h
    unfold updateTask at h
    split at h
    · cases h
    · injection h with h
      subst h
      exact ⟨rfl, fun n => invalidated_next_read _ s.cache n⟩
  · intro tid s' h
    unfold deleteTask at h
    split at h
    · cases h
    · injection h with h
      subst h
      exact ⟨rfl, fun n => invalidated_next_read _ s.cache n⟩
  · intro tid c s' h
    unfold addComment at h
    split at h
    · cases h
    · split at h
      · cases h
      · injection h with h
        subst h
        exact ⟨rfl, fun n => invalidated_next_read _ s.cache n⟩
  · intro fts s' h
    rw [bulkSaveTasks_eq_ok] at h
    injection h with h
    subst h
    exact ⟨rfl, fun n => invalidated_next_read _ s.cache n⟩

/-- Witness for C5: each of the five write operations, run concretely
over `exStateA`, leaves the cache cleared and a later `getTasks` serves
the written store. -/
theorem c5_writes_invalidate_cache_witness :
    (exAddResult.1.cache = { tasks := none, tasksExpiry := 0 } ∧
      (getTasks exAddResult.1.store exAddResult.1.cache 123456 false).1 =
        formatSnapshot exAddResult.1.store) ∧
    (exUpdateResult.cache = { tasks := none, tasksExpiry := 0 } ∧
      (getTasks exUpdateResult.store exUpdateResult.cache 123456 false).1 =
        formatSnapshot exUpdateResult.store) ∧
    (exDeleteResult.cache = { tasks := none, tasksExpiry := 0 } ∧
      (getTasks exDeleteResult.store exDeleteResult.cache 123456 false).1 =
        formatSnapshot exDeleteResult.store) ∧
    (exCommentResult.cache = { tasks := none, tasksExpiry := 0 } ∧
      (getTasks exCommentResult.store exCommentResult.cache 123456 false).1 =
        formatSnapshot exCommentResult.store) ∧
    (exBulkResult.cache = { tasks := none, tasksExpiry := 0 } ∧
      (getTasks exBulkResult.store exBulkResult.cache 123456 false).1 =
        formatSnapshot exBulkResult.store) := by
  have h := c5_writes_invalidate_cache exStateA 9
  have h5 := c5_writes_invalidate_cache exStateA 5
  refine ⟨?_, ?_, ?_, ?_, ?_⟩
  · have := h.1 exFt1 exAddResult (by rfl)
    exact ⟨this.1, this.2 123456⟩
  · have := h.2.1 (some "a") { column := some "done" } "unknown" exUpdateResult (by rfl)
    exact ⟨this.1, this.2 123456⟩
  · have := h.2.2.1 (some "a") exDeleteResult (by rfl)
    exact ⟨this.1, this.2 123456⟩
  · have := h.2.2.2.1 (some "a") { author := "genie", text := "done" } exCommentResult (by rfl)
    exact ⟨this.1, this.2 123456⟩
  · have := h5.2.2.2.2 exFtsB exBulkResult (by rfl)
    exact ⟨this.1, this.2 123456⟩

/-! ## C6: a failed store read degrades without poisoning the cache -/

/-- C6: on a cache miss, a failing bulk store read makes `getTasks`
return the empty snapshot and leaves the cache exactly as it was (so the
next call reads the store again). -/
theorem c6_read_failure_degrades (store : Store) (c : Cache) (now : Nat)
    (h : cacheIsValid c now = false) :
    getTasks store c now true = ({ columns := COLUMNS, tasks := [] }, c) := by
  simp [getTasks, h]

/-- Witness for C6: with an empty invalid cache, a failing read yields
the empty snapshot and does not populate the cache. -/
theorem c6_read_failure_degrades_witness :
    getTasks exStateA.store { tasks := none, tasksExpiry := 0 } 3 true =
      ({ columns := COLUMNS, tasks := [] }, { tasks := none, tasksExpiry := 0 }) :=
  c6_read_failure_degrades exStateA.store { tasks := none, tasksExpiry := 0 } 3 (by rfl)

/-! ## C3: operations on a missing task id -/

theorem sanitizeId_idem {tid : Option String} {sid : String} (h : sanitizeId tid = some sid) :
    sanitizeId (some sid) = some sid := by
  cases tid with
  | none => cases h
  | some s0 =>
    simp only [sanitizeId] at h
    by_cases hcond : 0 < (String.mk (s0.data.filter isIdChar)).length ∧
        (String.mk (s0.data.filter isIdChar)).length ≤ 50
    · rw [if_pos hcond] at h
      injection h with h
      subst h
      have hfix : (String.mk (s0.data.filter isIdChar)).data.filter isIdChar =
          s0.data.filter isIdChar := by
        apply List.filter_eq_self.mpr
        intro a ha
        exact (List.mem_filter.mp ha).2
      simp only [sanitizeId, hfix]
      rw [if_pos hcond]
    · rw [if_neg hcond] at h
      cases h

/-- C3 (amended): with a sanitized id absent from the store (and, per the
foreign key of the schema, no stored comment referencing it), `update`
and `delete` change no task, comment, or audit data but still answer 200
`{ok:true}`; only `comment` reports failure, via the foreign-key store
error surfaced as a 500, again changing nothing. -/
theorem c3_missing_id (s : ServerState) (tid : Option String) (sid : String)
    (u : TaskUpdates) (a : Option String) (c : CommentInput) (now : Nat)
    (hid : sanitizeId tid = some sid)
    (hmissing : s.store.tasks.find? (fun t => t.id = sid) = none)
    (hwf : ∀ cm ∈ s.store.comments, cm.task_id ≠ sid)
    (hcval : validateComment (some c) = []) :
    (∃ s', handleTaskAction s (.update tid (some u) a) now = (.ok200, s') ∧
      s'.store.tasks = s.store.tasks ∧ s'.store.comments = s.store.comments ∧
      s'.store.audit = s.store.audit) ∧
    (∃ s', handleTaskAction s (.delete tid) now = (.ok200, s') ∧
      s'.store.tasks = s.store.tasks ∧ s'.store.comments = s.store.comments ∧
      s'.store.audit = s.store.audit) ∧
    handleTaskAction s (.comment tid (some c)) now =
      (.serverError "insert on comments violates foreign key constraint comments_task_id_fkey",
        s) := by
  have hnotid : ∀ t ∈ s.store.tasks, t.id ≠ sid := by
    intro t ht
    have := List.find?_eq_none.mp hmissing t ht
    simpa using this
  have hany : (s.store.tasks.any fun t => decide (t.id = sid)) = false := by
    rw [List.any_eq_false]
    intro t ht
    simpa using hnotid t ht
  have hmapid : (s.store.tasks.map
      (fun t => if t.id = sid then applyTaskPayload t u now else t)) = s.store.tasks := by
    apply map_eq_self_of_eq
    intro t ht
    rw [if_neg (hnotid t ht)]
  refine ⟨?_, ?_, ?_⟩
  · have hupd : updateTask s (some sid) u (a.getD "unknown") now =
        .ok { store := s.store, cache := cacheInvalidate s.cache } := by
      cases hu : u.column with
      | none => simp only [updateTask, sanitizeId_idem hid, hmissing, hu, hmapid]
      | some cc => simp only [updateTask, sanitizeId_idem hid, hmissing, hu, hmapid]
    refine ⟨{ store := s.store, cache := cacheInvalidate s.cache }, ?_, rfl, rfl, rfl⟩
    simp only [handleTaskAction, hid, hupd]
  · have hfil : (s.store.tasks.filter fun t => ¬ t.id = sid) = s.store.tasks := by
      apply List.filter_eq_self.mpr
      intro t ht
      simpa using hnotid t ht
    have hfilc : (s.store.comments.filter fun cm => ¬ cm.task_id = sid) = s.store.comments := by
      apply List.filter_eq_self.mpr
      intro cm hcm
      simpa using hwf cm hcm
    have hdel : deleteTask s (some sid) now =
        .ok { store := s.store, cache := cacheInvalidate s.cache } := by
      simp only [deleteTask, sanitizeId_idem hid, hmissing, hfil, hfilc]
    refine ⟨{ store := s.store, cache := cacheInvalidate s.cache }, ?_, rfl, rfl, rfl⟩
    simp only [handleTaskAction, hid, hdel]
  · have hins : insertComments s.store
        [{ task_id := sid, author := c.author, text := c.text, created_at := now }] =
        .error "insert on comments violates foreign key constraint comments_task_id_fkey" := by
      unfold insertComments
      rw [if_neg]
      simp [hany]
    have hcom : addComment s (some sid) c now =
        .error "insert on comments violates foreign key constraint comments_task_id_fkey" := by
      simp only [addComment, sanitizeId_idem hid, hins]
    simp only [handleTaskAction, hid, hcval, List.isEmpty_nil, if_true, hcom]

/-- Witness for C3 (amended): on the concrete store holding only task
`a`, updating and deleting the absent id `b` answer 200 with nothing
changed, and commenting on `b` surfaces the foreign-key failure. -/
theorem c3_missing_id_witness :
    (∃ s', handleTaskAction exStateA
        (.update (some "b") (some { column := some "done" }) none) 9 = (.ok200, s') ∧
      s'.store.tasks = exStateA.store.tasks ∧ s'.store.comments = exStateA.store.comments ∧
      s'.store.audit = exStateA.store.audit) ∧
    (∃ s', handleTaskAction exStateA (.delete (some "b")) 9 = (.ok200, s') ∧
      s'.store.tasks = exStateA.store.tasks ∧ s'.store.comments = exStateA.store.comments ∧
      s'.store.audit = exStateA.store.audit) ∧
    handleTaskAction exStateA (.comment (some "b")
        (some { author := "genie", text := "hi" })) 9 =
      (.serverError "insert on comments violates foreign key constraint comments_task_id_fkey",
        exStateA) :=
  c3_missing_id exStateA (some "b") "b" { column := some "done" } none
    { author := "genie", text := "hi" } 9 (by rfl) (by rfl) (by decide) (by rfl)

/-- Counterexample for C3 as stated: the sanitized id `b` is absent from
the store, yet the update operation answers 200 `{ok:true}` — it reports
success, not failure. -/
theorem c3_counterexample :
    sanitizeId (some "b") = some "b" ∧
    exStateA.store.tasks.find? (fun t => t.id = "b") = none ∧
    (handleTaskAction exStateA
      (.update (some "b") (some { column := some "done" }) none) 9).1 = ApiResult.ok200 := by
  refine ⟨rfl, rfl, rfl⟩

/-! ## C8: session-status staleness filtering -/

/-- C8: the aggregate session read keeps only sessions updated within the
5-minute window: no returned session is stale, `active` holds exactly
when some fresh row has its active flag set, and `currentTask` can only
originate from a fresh active row. -/
theorem c8_session_expiry (rows : List GenieRow) (now : Nat) :
    (∀ sess ∈ (getGenieStatus rows now).sessions, now - sess.updatedAt < STALENESS_WINDOW) ∧
    ((getGenieStatus rows now).active = true ↔
      ∃ r ∈ rows, now - r.updated_at < STALENESS_WINDOW ∧ r.active = true) ∧
    (∀ v, (getGenieStatus rows now).currentTask = some v →
      ∃ r ∈ rows, now - r.updated_at < STALENESS_WINDOW ∧ r.active = true ∧
        r.current_task = some v) := by
  refine ⟨?_, ?_, ?_⟩
  · intro sess hsess
    simp only [getGenieStatus] at hsess
    obtain ⟨r, hrf, hr⟩ := List.mem_map.mp hsess
    obtain ⟨_, hfresh⟩ := List.mem_filter.mp hrf
    rw [← hr]
    simpa using hfresh
  · simp only [getGenieStatus]
    rw [any_map_eq, List.any_eq_true]
    constructor
    · rintro ⟨r, hrf, hact⟩
      obtain ⟨hr, hfresh⟩ := List.mem_filter.mp hrf
      exact ⟨r, hr, by simpa using hfresh, hact⟩
    · rintro ⟨r, hr, hfresh, hact⟩
      exact ⟨r, List.mem_filter.mpr ⟨hr, by simpa using hfresh⟩, hact⟩
  · intro v hv
    simp only [getGenieStatus] at hv
    cases hfind : ((rows.filter (fun s => now - s.updated_at < STALENESS_WINDOW)).map
        (fun s => { sessionKey := s.session_key, label := s.label, active := s.active,
                    currentTask := s.current_task, model := s.model,
                    updatedAt := s.updated_at : GenieSession })).find? (fun s => s.active) with
    | none =>
      simp only [hfind] at hv
      cases hv
    | some s0 =>
      simp only [hfind] at hv
      have hact : s0.active = true := by simpa using List.find?_some hfind
      have hmem := List.mem_of_find?_eq_some hfind
      obtain ⟨r, hrf, hr⟩ := List.mem_map.mp hmem
      obtain ⟨hrmem, hfresh⟩ := List.mem_filter.mp hrf
      refine ⟨r, hrmem, by simpa using hfresh, ?_, ?_⟩
      · have : s0.active = r.active := by rw [← hr]
        rw [← this, hact]
      · have hcur : s0.currentTask = r.current_task := by rw [← hr]
        cases hct : s0.currentTask with
        | none =>
          simp only [hct] at hv
          cases hv
        | some t =>
          simp only [hct] at hv
          unfold orNullStr at hv
          by_cases ht : t = ""
          · rw [if_pos ht] at hv; cases hv
          · rw [if_neg ht] at hv
            injection hv with hv
            rw [← hcur, hct, hv]

/-- Witness for C8: at read time 400000 the aggregate `currentTask` `t`
is traced back to the fresh active row `s1`. -/
theorem c8_session_expiry_witness :
    ∃ r ∈ exGenieRows, 400000 - r.updated_at < STALENESS_WINDOW ∧ r.active = true ∧
      r.current_task = some "t" :=
  (c8_session_expiry exGenieRows 400000).2.2 "t" (by rfl)

/-! ## C9: identifier sanitization -/

/-- C9 (amended): every id accepted by `sanitizeId` is drawn from the
`[a-zA-Z0-9_-]` charset with length in `[1, 50]`, and the update, delete,
and comment actions — on tasks and on projects alike — reject an id that
sanitizes away (missing, empty, or all-invalid) with a validation error
before any store access.  (The task and project add actions, by
contrast, use the raw client id: see `c9_counterexample`.) -/
theorem c9_sanitization :
    (∀ i sid, sanitizeId i = some sid →
      sid.data.all isIdChar = true ∧ 0 < sid.length ∧ sid.length ≤ 50) ∧
    (∀ (s : ServerState) tid u a now, sanitizeId tid = none →
      handleTaskAction s (.update tid u a) now = (.badRequest ["Invalid taskId"], s)) ∧
    (∀ (s : ServerState) tid now, sanitizeId tid = none →
      handleTaskAction s (.delete tid) now = (.badRequest ["Invalid taskId"], s)) ∧
    (∀ (s : ServerState) tid cm now, sanitizeId tid = none →
      handleTaskAction s (.comment tid cm) now = (.badRequest ["Invalid taskId"], s)) ∧
    (∀ (s : ServerState) pid u now, sanitizeId pid = none →
      handleProjectAction s (.update pid u) now = (.badRequest ["Invalid projectId"], s)) ∧
    (∀ (s : ServerState) pid now, sanitizeId pid = none →
      handleProjectAction s (.delete pid) now = (.badRequest ["Invalid projectId"], s)) ∧
    (∀ (s : ServerState) pid cm now, sanitizeId pid = none →
      handleProjectAction s (.comment pid cm) now =
        (.badRequest ["Invalid projectId"], s)) := by
  refine ⟨?_, ?_, ?_, ?_, ?_, ?_, ?_⟩
  · intro i sid h
    cases i with
    | none => cases h
    | some s0 =>
      simp only [sanitizeId] at h
      by_cases hcond : 0 < (String.mk (s0.data.filter isIdChar)).length ∧
          (String.mk (s0.data.filter isIdChar)).length ≤ 50
      · rw [if_pos hcond] at h
        injection h with h
        subst h
        refine ⟨?_, hcond.1, hcond.2⟩
        show (s0.data.filter isIdChar).all isIdChar = true
        rw [List.all_eq_true]
        intro a ha
        exact (List.mem_filter.mp ha).2
      · rw [if_neg hcond] at h
        cases h
  · intro s tid u a now h
    simp only [handleTaskAction, h]
  · intro s tid now h
    simp only [handleTaskAction, h]
  · intro s tid cm now h
    simp only [handleTaskAction, h]
  · intro s pid u now h
    simp only [handleProjectAction, h]
  · intro s pid now h
    simp only [handleProjectAction, h]
  · intro s pid cm now h
    simp only [handleProjectAction, h]

/-- Witness for C9 (amended): a concrete accepted id satisfies the charset
and length bounds, and an id sanitizing to empty is rejected — with no
state change — by the task update action and by the project update
action. -/
theorem c9_sanitization_witness :
    ("abc".data.all isIdChar = true ∧ 0 < "abc".length ∧ "abc".length ≤ 50) ∧
    handleTaskAction exStateA (.update (some "!!") (some { column := some "done" }) none) 9 =
      (.badRequest ["Invalid taskId"], exStateA) ∧
    handleProjectAction exStateA (.update (some "!!") { status := some "active" }) 9 =
      (.badRequest ["Invalid projectId"], exStateA) :=
  ⟨c9_sanitization.1 (some "a b c!") "abc" (by rfl),
   c9_sanitization.2.1 exStateA (some "!!") (some { column := some "done" }) none 9 (by rfl),
   c9_sanitization.2.2.2.2.1 exStateA (some "!!") { status := some "active" } 9 (by rfl)⟩

/-- Counterexample for C9 as stated: both add actions write the raw
client-supplied id `bad!id` — which contains a character outside the
sanitized charset and differs from its sanitized form — directly as a
store key: the task add as the `tasks` primary key and the project add
as the `projects` primary key. -/
theorem c9_counterexample :
    (handleTaskAction exState0 (.add (some exBadTask)) 7).2.store.tasks.map
        (fun t => t.id) = ["bad!id"] ∧
    (handleProjectAction exState0 (.add (some exBadProject)) 7).2.store.projects.map
        (fun p => p.id) = ["bad!id"] ∧
    sanitizeId (some "bad!id") = some "badid" ∧
    ("bad!id".data.all isIdChar) = false := by
  refine ⟨rfl, rfl, rfl, rfl⟩

/-! ## C10: bounded, newest-first, author-filtered history -/

theorem mem_insertAuditDesc {x a : AuditRow} {l : List AuditRow} :
    a ∈ insertAuditDesc x l ↔ a = x ∨ a ∈ l := by
  induction l with
  | nil => simp [insertAuditDesc]
  | cons y ys ih =>
    unfold insertAuditDesc
    split
    · simp [List.mem_cons]
    · simp only [List.mem_cons, ih]
      tauto

theorem pairwise_insertAuditDesc {x : AuditRow} {l : List AuditRow}
    (h : List.Pairwise (fun a b => b.created_at ≤ a.created_at) l) :
    List.Pairwise (fun a b => b.created_at ≤ a.created_at) (insertAuditDesc x l) := by
  induction l with
  | nil => simp [insertAuditDesc]
  | cons y ys ih =>
    unfold insertAuditDesc
    split
    · next hyx =>
      refine List.Pairwise.cons ?_ h
      intro b hb
      rcases List.mem_cons.mp hb with hby | hbys
      · rw [hby]; exact hyx
      · exact Nat.le_trans (List.rel_of_pairwise_cons h hbys) hyx
    · next hyx =>
      have hxy : x.created_at ≤ y.created_at := Nat.le_of_not_le hyx
      refine List.Pairwise.cons ?_ (ih (List.Pairwise.of_cons h))
      intro b hb
      rcases mem_insertAuditDesc.mp hb with hbx | hbys
      · rw [hbx]; exact hxy
      · exact List.rel_of_pairwise_cons h hbys

theorem pairwise_sortAuditDesc (l : List AuditRow) :
    List.Pairwise (fun a b => b.created_at ≤ a.created_at) (sortAuditDesc l) := by
  induction l with
  | nil => exact List.Pairwise.nil
  | cons x xs ih => exact pairwise_insertAuditDesc ih

theorem pairwise_getHistory (store : Store) :
    List.Pairwise (fun a b => b.time ≤ a.time) (getHistory store) := by
  unfold getHistory
  rw [List.pairwise_map]
  exact (pairwise_sortAuditDesc store.audit).sublist (List.take_sublist 500 _)

/-- C10: the public history read returns at most 100 events, ordered
newest-first, and when an author filter other than `all` (and non-empty)
is supplied every returned event carries exactly that author. -/
theorem c10_history_endpoint (store : Store) (author : Option String) :
    (historyEndpoint store author).length ≤ 100 ∧
    List.Pairwise (fun a b => b.time ≤ a.time) (historyEndpoint store author) ∧
    (∀ a, author = some a → a ≠ "all" → a ≠ "" →
      ∀ e ∈ historyEndpoint store author, e.author = a) := by
  have hsub : List.Sublist (historyEndpoint store author) (getHistory store) := by
    refine List.Sublist.trans (List.take_sublist 100 _) ?_
    cases author with
    | none => exact List.Sublist.refl _
    | some a =>
      show List.Sublist (if a ≠ "" ∧ a ≠ "all" then
          (getHistory store).filter (fun (h : HistoryEntry) => h.author = a)
        else getHistory store) (getHistory store)
      by_cases hc : a ≠ "" ∧ a ≠ "all"
      · rw [if_pos hc]
        exact List.filter_sublist _
      · rw [if_neg hc]
  refine ⟨List.length_take_le 100 _, ?_, ?_⟩
  · exact (pairwise_getHistory store).sublist hsub
  · intro a ha hall hne e he
    subst ha
    simp only [historyEndpoint] at he
    rw [if_pos ⟨hne, hall⟩] at he
    have := List.mem_filter.mp (List.mem_of_mem_take he)
    simpa using this.2

/-- Witness for C10: on a concrete audit store and the filter `genie`,
the endpoint answers at most 100 events, newest first, all by `genie`. -/
theorem c10_history_endpoint_witness :
    (historyEndpoint exHistStore (some "genie")).length ≤ 100 ∧
    List.Pairwise (fun a b => b.time ≤ a.time) (historyEndpoint exHistStore (some "genie")) ∧
    ∀ e ∈ historyEndpoint exHistStore (some "genie"), e.author = "genie" :=
  ⟨(c10_history_endpoint exHistStore (some "genie")).1,
   (c10_history_endpoint exHistStore (some "genie")).2.1,
   (c10_history_endpoint exHistStore (some "genie")).2.2 "genie" rfl
     (by decide) (by decide)⟩

end Genie
